import Mathlib

/-!
Verification of the OracleAPEX_JS_Logger specification against a shallow
embedding of `src/logger.js`, `src/logger-config.js` and `src/logger-utils.js`.

JavaScript values are modelled by the inductive type `JValue` (null, undefined,
booleans, integer-valued numbers, strings, and plain objects given as ordered
field lists).  `JSON.stringify` is modelled by `stringifyVal` / `stringifyFields`
(undefined serializes to nothing and is dropped from objects, exactly as in JS);
string lengths and `substring(0, n)` are modelled on the underlying character
lists.  Reference cycles are not representable in an inductive value domain, so
the catch branch of `_sanitizeData` is kept but is unreachable here.
-/

set_option autoImplicit false

namespace ApexLogger

mutual

/-- A JavaScript value, as far as the logger inspects values: primitives plus
plain objects with ordered own-property lists.  Numbers are modelled as
integers (the logger never does fractional arithmetic on payloads). -/
inductive JValue where
  | vNull
  | vUndefined
  | vBool (b : Bool)
  | vNum (n : Int)
  | vStr (s : String)
  | vObj (fields : JFields)
  deriving DecidableEq

/-- Ordered own-property list of a JS object (insertion order, as iterated by
`for...in` with `hasOwnProperty` and by `JSON.stringify`). -/
inductive JFields where
  | nil
  | cons (key : String) (value : JValue) (rest : JFields)
  deriving DecidableEq

end

/-- JS truthiness: null, undefined, false, 0 and the empty string are falsy;
objects are always truthy. -/
def truthy : JValue → Bool
  | .vNull => false
  | .vUndefined => false
  | .vBool b => b
  | .vNum n => n != 0
  | .vStr s => !s.data.isEmpty
  | .vObj _ => true

/-- JSON escaping of a single character (the cases produced by
`JSON.stringify` for the character range the logger handles). -/
def escChar (c : Char) : String :=
  if c = '"' then "\\\""
  else if c = '\\' then "\\\\"
  else if c = '\n' then "\\n"
  else if c = '\t' then "\\t"
  else if c = '\r' then "\\r"
  else String.singleton c

/-- JSON escaping over a character list. -/
def escList : List Char → List Char
  | [] => []
  | c :: rest => (escChar c).data ++ escList rest

/-- JSON escaping of a string. -/
def jsonEscape (s : String) : String := String.mk (escList s.data)

/-- The `.length` of a JS string (character count). -/
def jsLength (s : String) : Nat := s.data.length

/-- JS `s.substring(0, n)`. -/
def jsSubstringTo (s : String) (n : Nat) : String := String.mk (s.data.take n)

/-- Comma-separated join of rendered object members. -/
def joinComma : List String → String
  | [] => ""
  | [x] => x
  | x :: rest => x ++ "," ++ joinComma rest

mutual

/-- Model of `JSON.stringify`: `none` models the JS result `undefined`
(produced only for a top-level `undefined` in this value domain). -/
def stringifyVal : JValue → Option String
  | .vNull => some "null"
  | .vUndefined => none
  | .vBool b => some (cond b "true" "false")
  | .vNum n => some (toString n)
  | .vStr s => some ("\"" ++ jsonEscape s ++ "\"")
  | .vObj fs => some ("\x7b" ++ joinComma (stringifyFields fs) ++ "\x7d")

/-- Rendered `"key":value` members of an object; fields whose value
serializes to `undefined` are dropped, as `JSON.stringify` does. -/
def stringifyFields : JFields → List String
  | .nil => []
  | .cons k v rest =>
    match stringifyVal v with
    | none => stringifyFields rest
    | some sv => ("\"" ++ jsonEscape k ++ "\":" ++ sv) :: stringifyFields rest

end

/-- JS `typeof`. -/
def typeofStr : JValue → String
  | .vNull => "object"
  | .vUndefined => "undefined"
  | .vBool _ => "boolean"
  | .vNum _ => "number"
  | .vStr _ => "string"
  | .vObj _ => "object"

/-- JS `String(data)` for the modelled values. -/
def jsToString : JValue → String
  | .vNull => "null"
  | .vUndefined => "undefined"
  | .vBool b => cond b "true" "false"
  | .vNum n => toString n
  | .vStr s => s
  | .vObj _ => "[object Object]"

/-- Property access `obj[k]` on an ordered field list (first match). -/
def fieldsLookup (k : String) : JFields → Option JValue
  | .nil => none
  | .cons key v rest => if key = k then some v else fieldsLookup k rest

/-- JS `s.toLowerCase()` (character-wise, as the logger only compares
ASCII key names). -/
def lowerStr (s : String) : String := String.mk (s.data.map Char.toLower)

/-- JS `s.toUpperCase()` (character-wise). -/
def upperStr (s : String) : String := String.mk (s.data.map Char.toUpper)

/-- Whether `sub` occurs at the front of `hay` (character-wise prefix test). -/
def leadsWith : List Char → List Char → Bool
  | [], _ => true
  | _ :: _, [] => false
  | a :: as, b :: bs => (a == b) && leadsWith as bs

/-- Whether `sub` occurs somewhere inside `hay`. -/
def listContains (sub : List Char) : List Char → Bool
  | [] => sub.isEmpty
  | c :: rest => leadsWith sub (c :: rest) || listContains sub rest

/-- JS `s.includes(sub)`. -/
def jsIncludes (s sub : String) : Bool := listContains sub.data s.data

/-- The sanitizer-relevant part of the configuration record.
`sensitiveFields` is `none` when the key is absent/undefined (so that the
`config.sensitiveFields || [...]` default in the source can fire; an empty
array is truthy in JS and does not trigger the default). -/
structure SanitizeConfig where
  enableDataMasking : Bool
  sensitiveFields : Option (List String)
  maxDataSize : Nat
  deriving DecidableEq

/-- The fallback `config.sensitiveFields || [...]` with the default list
["password", "token", "ssn"]. -/
def effSensitiveFields (c : SanitizeConfig) : List String :=
  c.sensitiveFields.getD ["password", "token", "ssn"]

/-- The sensitivity test of `_maskSensitiveFields` in `logger.js`:
`sensitiveFields.some(field => lowerKey.includes(field))` — note that the
configured entry is NOT lowercased there. -/
def isSensitiveKey (fields : List String) (key : String) : Bool :=
  fields.any (fun field => jsIncludes (lowerStr key) field)

/-- The loop body of `_maskSensitiveFields`: rebuild the object, replacing
values of sensitive keys with the mask token. -/
def maskFields (fields : List String) : JFields → JFields
  | .nil => .nil
  | .cons k v rest =>
    .cons k (if isSensitiveKey fields k then .vStr "***MASKED***" else v)
      (maskFields fields rest)

/-- `_maskSensitiveFields` from `logger.js`: returns the input unchanged when
masking is disabled, the value is falsy, or the `typeof` check shows a
non-object.  In this value domain `vObj` is the only truthy value of object
type (`null` has object type but is falsy and is caught by the `!data`
test). -/
def maskSensitiveFields (c : SanitizeConfig) (data : JValue) : JValue :=
  if !c.enableDataMasking then data
  else
    match data with
    | .vObj fs => .vObj (maskFields (effSensitiveFields c) fs)
    | other => other

/-- The sensitivity test of `loggerUtils.maskSensitiveFields` in
`logger-utils.js`: `lowerKey.includes(field.toLowerCase())` — unlike the
`logger.js` variant, the configured entry IS lowercased. -/
def utilsIsSensitiveKey (fields : List String) (key : String) : Bool :=
  fields.any (fun field => jsIncludes (lowerStr key) (lowerStr field))

/-- The loop body of `loggerUtils.maskSensitiveFields`. -/
def utilsMaskFields (fields : List String) : JFields → JFields
  | .nil => .nil
  | .cons k v rest =>
    .cons k (if utilsIsSensitiveKey fields k then .vStr "***MASKED***" else v)
      (utilsMaskFields fields rest)

/-- `loggerUtils.maskSensitiveFields(data, sensitiveFields, enableMasking)`. -/
def utilsMaskSensitiveFields (sensitiveFields : Option (List String))
    (enableMasking : Bool) (data : JValue) : JValue :=
  if !enableMasking then data
  else
    match data with
    | .vObj fs =>
      .vObj (utilsMaskFields (sensitiveFields.getD ["password", "token", "ssn"]) fs)
    | other => other

/-- `_sanitizeData` from `logger.js`: falsy data is returned as-is; then the
data is serialized (`JSON.stringify` is called for the cycle check and again
for the size check — both calls yield the same string, modelled once); an
over-size serialization yields the truncation wrapper; otherwise masking is
applied.  A serialization failure (`stringifyVal = none`, or a cycle in real
JS) yields the error wrapper of the catch branch. -/
def sanitizeData (c : SanitizeConfig) (data : JValue) : JValue :=
  if !truthy data then data
  else
    match stringifyVal data with
    | some dataStr =>
      if c.maxDataSize < jsLength dataStr then
        .vObj (.cons "_truncated" (.vBool true)
          (.cons "_originalSize" (.vNum (jsLength dataStr))
            (.cons "data" (.vStr (jsSubstringTo dataStr c.maxDataSize ++ "...")) .nil)))
      else maskSensitiveFields c data
    | none =>
      .vObj (.cons "_error" (.vStr "Could not serialize data")
        (.cons "_type" (.vStr (typeofStr data))
          (.cons "_string" (.vStr (jsSubstringTo (jsToString data) 100)) .nil)))

/-! ## Level filter (`_shouldLog`, `LOG_LEVELS` from `logger-config.js`) -/

/-- The `LOG_LEVELS` constant of `logger-config.js`. -/
def LOG_LEVELS : List (String × Nat) :=
  [("OFF", 0), ("PERMANENT", 1), ("ERROR", 2), ("WARNING", 4), ("INFORMATION", 8),
   ("DEBUG", 16), ("TIMING", 32), ("SYS_CONTEXT", 64), ("APEX", 128)]

/-- `LOG_LEVELS[name.toUpperCase()]`: `none` models the JS result
`undefined` for an unrecognized level name. -/
def levelWeight (s : String) : Option Nat := List.lookup (upperStr s) LOG_LEVELS

/-- The `level` argument of `_shouldLog` may be a string or a number. -/
inductive LevelArg where
  | str (s : String)
  | num (n : Nat)
  deriving DecidableEq

/-- The first line of `_shouldLog`: a string level is resolved through
`LOG_LEVELS[level.toUpperCase()]`, a numeric level passes through. -/
def levelArgNum : LevelArg → Option Nat
  | .str s => levelWeight s
  | .num n => some n

/-- JS `x === n` where `x` may be `undefined` (`undefined === n` is false). -/
def beqOptNat : Option Nat → Nat → Bool
  | some a, b => a == b
  | none, _ => false

/-- JS `x <= y` where either side may be `undefined` (any comparison with
`undefined` is false). -/
def jsLeOpt : Option Nat → Option Nat → Bool
  | some a, some b => a ≤ b
  | _, _ => false

/-- `_shouldLog` from `logger.js`: PERMANENT (weight 1) always logs, OFF
(weight 0) blocks everything else, otherwise compare weights. -/
def shouldLog (configLevel : String) (level : LevelArg) : Bool :=
  let levelNum := levelArgNum level
  let configNum := levelWeight configLevel
  if beqOptNat levelNum 1 then true
  else if beqOptNat configNum 0 then false
  else jsLeOpt levelNum configNum

/-! ## Delivery client (`_sendToServer` from `logger.js`) -/

/-- The delivery-relevant part of the configuration. -/
structure ServerConfig where
  enableServer : Bool
  retryCount : Nat
  enableConsole : Bool
  deriving DecidableEq

/-- One console write, by console method. -/
inductive ConsoleEvent where
  | warnEvent (msg : String)
  | logEvent (msg : String)
  | errorEvent (msg : String)
  deriving DecidableEq

/-- Observable outcome of a `_sendToServer` call whose transport fails on
every attempt: number of transport attempts, the `setTimeout` delays
scheduled before each retry (in order), the final `config._serverError`
flag, and the console writes of the fallback. -/
structure SendOutcome where
  attempts : Nat
  delays : List Nat
  serverError : Bool
  console : List ConsoleEvent
  deriving DecidableEq

/-- JS `n || fallback` on numbers (0 is falsy). -/
def jsOrDefault (n fallback : Nat) : Nat := if n = 0 then fallback else n

/-- The `attemptSend` recursion of `_sendToServer` under a permanently
failing transport.  `attemptNum` is the value of `retryAttempts` on entry to
the current attempt and `remaining = maxRetries - attemptNum` counts the
retries still allowed: after the current attempt fails, `retryAttempts`
becomes `attemptNum + 1`, and `retryAttempts <= maxRetries` holds exactly
when `remaining > 0`, in which case a retry is scheduled after
`1000 * retryAttempts` ms; otherwise `config._serverError` is set and, when
console output is enabled, the fallback warning plus the formatted entry are
written. -/
def retryLoopFail (enableConsole : Bool) (entryMsg : String) :
    (attemptNum : Nat) → (remaining : Nat) → SendOutcome
  | _, 0 =>
    { attempts := 1, delays := [], serverError := true,
      console :=
        if enableConsole then
          [.warnEvent "Logger server failed, using console fallback", .logEvent entryMsg]
        else [] }
  | attemptNum, remaining + 1 =>
    let rest := retryLoopFail enableConsole entryMsg (attemptNum + 1) remaining
    { attempts := rest.attempts + 1, delays := 1000 * (attemptNum + 1) :: rest.delays,
      serverError := rest.serverError, console := rest.console }

/-- `_sendToServer(logEntry)` under a permanently failing transport:
nothing happens when `config.enableServer` is false; otherwise
`maxRetries = config.retryCount || 1` and the attempt loop runs.
`entryMsg` stands for `_formatConsoleMessage(logEntry)`. -/
def sendToServerAllFail (cfg : ServerConfig) (entryMsg : String) : SendOutcome :=
  if !cfg.enableServer then { attempts := 0, delays := [], serverError := false, console := [] }
  else retryLoopFail cfg.enableConsole entryMsg 0 (jsOrDefault cfg.retryCount 1)

/-! ## Delivery queue (`_addToBuffer` / `_flushBuffer`, buffered variant of
`logger.js`) -/

/-- Buffering configuration. -/
structure BufConfig where
  enableBuffer : Bool
  bufferSize : Nat
  deriving DecidableEq

/-- Queue state: the pending buffer plus the entries already handed to the
delivery client (`_sendToServer`), in dispatch order. -/
structure BufState (α : Type) where
  buffer : List α
  dispatched : List α
  deriving DecidableEq

/-- `_flushBuffer()`: a flush of an empty queue returns immediately;
otherwise `splice(0)` takes the whole queue and each taken entry is handed
to `_sendToServer` in order. -/
def flushBuffer {α : Type} (st : BufState α) : BufState α :=
  if st.buffer.length = 0 then st
  else { buffer := [], dispatched := st.dispatched ++ st.buffer }

/-- `_addToBuffer(logEntry)`: no-op unless buffering is enabled; pushes the
entry at the tail; flushes when the queue length reaches `bufferSize`. -/
def addToBuffer {α : Type} (cfg : BufConfig) (st : BufState α) (e : α) : BufState α :=
  if !cfg.enableBuffer then st
  else
    let st' : BufState α := { st with buffer := st.buffer ++ [e] }
    if cfg.bufferSize ≤ st'.buffer.length then flushBuffer st' else st'

/-! ## Timer registry (`timeStart` / `timeStop` / `timeStopServer`) -/

/-- The `timingUnits` object: unit name to recorded `performance.now()`
value.  Keys are unique in a JS object; `regSet` overwrites in place and
`regRemove` models `delete`. -/
abbrev TimerReg := List (String × Int)

/-- `timingUnits[unit]` (undefined when absent). -/
def regLookup (u : String) : TimerReg → Option Int
  | [] => none
  | (k, v) :: rest => if k = u then some v else regLookup u rest

/-- `timingUnits[unit] = t`. -/
def regSet (u : String) (t : Int) : TimerReg → TimerReg
  | [] => [(u, t)]
  | (k, v) :: rest => if k = u then (k, t) :: rest else (k, v) :: regSet u t rest

/-- `delete timingUnits[unit]`. -/
def regRemove (u : String) (reg : TimerReg) : TimerReg :=
  reg.filter (fun p => p.1 ≠ u)

/-- `Number.toFixed(2)` on the integer-valued clock domain. -/
def toFixed2 (n : Int) : String := toString n ++ ".00"

/-- `timeStart(unit)`: records the current `performance.now()` value. -/
def timeStart (reg : TimerReg) (now : Int) (unit : String) : TimerReg :=
  regSet unit now reg

/-- Result of a `timeStop` / `timeStopServer` call: the returned number, the
registry afterwards, whether the not-started warning was written, and the
`(message, extra)` pair handed to `log` / `logServer` (none when no log call
was made). -/
structure TimeStopResult where
  ret : Int
  reg : TimerReg
  warned : Bool
  logged : Option (String × JValue)
  deriving DecidableEq

/-- `timeStop(unit, module)`: the `if (!timingUnits[unit])` guard is a JS
falsiness test, so both an absent unit and a stored start value of exactly 0
take the warn-and-return-0 path (without touching the registry); otherwise
the elapsed time is computed, the completion message is routed through
`log`, and the unit is deleted. -/
def timeStop (reg : TimerReg) (now : Int) (unit : String) : TimeStopResult :=
  match regLookup unit reg with
  | none => ⟨0, reg, true, none⟩
  | some t =>
    if t = 0 then ⟨0, reg, true, none⟩
    else
      ⟨now - t, regRemove unit reg, false,
        some (unit ++ " completed in " ++ toFixed2 (now - t) ++ "ms",
          .vObj (.cons "unit" (.vStr unit) (.cons "elapsed" (.vNum (now - t)) .nil)))⟩

/-- `timeStopServer(unit, module)`: identical to `timeStop` except that the
message is routed through `logServer`; the registry logic is a clone. -/
def timeStopServer (reg : TimerReg) (now : Int) (unit : String) : TimeStopResult :=
  match regLookup unit reg with
  | none => ⟨0, reg, true, none⟩
  | some t =>
    if t = 0 then ⟨0, reg, true, none⟩
    else
      ⟨now - t, regRemove unit reg, false,
        some (unit ++ " completed in " ++ toFixed2 (now - t) ++ "ms",
          .vObj (.cons "unit" (.vStr unit) (.cons "elapsed" (.vNum (now - t)) .nil)))⟩

/-! ## Public entry points and exception propagation

The only synchronous failure sources inside the logging pipeline are the
host globals the code itself treats as possibly missing: `console` (the code
guards its catch blocks with a `typeof console` check), `apex` (guarded by a
`typeof apex` check and by the try/catch inside `_sendToServer`), and
`performance` (used unguarded by the timing functions).  `HostEnv` models
their availability; referring to a missing global raises a
`ReferenceError`, modelled with `Except`. -/

/-- Availability of the host globals plus the current clock and the
locale-rendered timestamp string of this turn. -/
structure HostEnv where
  hasConsole : Bool
  hasPerformance : Bool
  hasApex : Bool
  now : Int
  tsStr : String
  deriving DecidableEq

/-- A thrown JS error. -/
inductive JsError where
  | referenceError (name : String)
  deriving DecidableEq

/-- `e.message` of a modelled error. -/
def jsErrMessage : JsError → String
  | .referenceError n => n ++ " is not defined"

/-- Whether an `Except` result is a normal completion. -/
def isOkE {ε α : Type} : Except ε α → Bool
  | .ok _ => true
  | .error _ => false

/-- The full configuration record (`currentConfig` of `logger-config.js`). -/
structure LoggerConfig where
  level : String
  enableConsole : Bool
  enableServer : Bool
  retryCount : Nat
  enableDataMasking : Bool
  sensitiveFields : Option (List String)
  maxDataSize : Nat
  deriving DecidableEq

/-- The sanitizer view of the configuration. -/
def LoggerConfig.sanCfg (c : LoggerConfig) : SanitizeConfig :=
  ⟨c.enableDataMasking, c.sensitiveFields, c.maxDataSize⟩

/-- `_formatConsoleMessage(logEntry)` (also the shape of the styled
`_outputToConsole` line, with the `%c` style directives elided):
`[time] LEVEL [module] text extra`.  An absent or empty module renders as
the empty string; a falsy `extra` renders nothing. -/
def formatConsoleMessage (tsStr level : String) (module : Option String)
    (text : String) (extra : JValue) : String :=
  let moduleStr :=
    match module with
    | some m => if m.data.isEmpty then "" else "[" ++ m ++ "]"
    | none => ""
  let extraStr :=
    if truthy extra then " " ++ (stringifyVal extra).getD "undefined" else ""
  "[" ++ tsStr ++ "] " ++ upperStr level ++ " " ++ moduleStr ++ " " ++ text ++ extraStr

/-- `_outputToConsole(logEntry)`: picks the console method from the level
(ERROR uses `console.error`, WARNING `console.warn`, everything else
`console.log`); touching `console` at all throws when the global is
missing. -/
def outputToConsole (env : HostEnv) (level msg : String) :
    Except JsError (List ConsoleEvent) :=
  if !env.hasConsole then .error (.referenceError "console")
  else if upperStr level = "ERROR" then .ok [.errorEvent msg]
  else if upperStr level = "WARNING" then .ok [.warnEvent msg]
  else .ok [.logEvent msg]

/-- The protective `try/catch` wrapped around the body of `log`,
`logServer`, `error` and `warning`: on any internal exception it writes a
`console.error` diagnostic and the original raw message, when a console
exists. -/
def catchBoundary (env : HostEnv) (text : String)
    (body : Except JsError (List ConsoleEvent)) : Except JsError (List ConsoleEvent) :=
  match body with
  | .ok evs => .ok evs
  | .error e =>
    .ok (if env.hasConsole then
      [.errorEvent ("Logger error: " ++ jsErrMessage e),
       .logEvent ("Original message: " ++ text)]
    else [])

/-- The shared body of `log` / `error` / `warning` (the three functions are
clones differing only in the fixed level): build the entry (sanitizing the
extra payload), apply the level filter, then write to the console when
enabled. -/
def logBodyRun (c : LoggerConfig) (env : HostEnv) (level text : String)
    (module : Option String) (extra : JValue) : Except JsError (List ConsoleEvent) :=
  let entryExtra := sanitizeData c.sanCfg extra
  if !shouldLog c.level (.str level) then .ok []
  else if c.enableConsole then
    outputToConsole env level (formatConsoleMessage env.tsStr level module text entryExtra)
  else .ok []

/-- Public `log(text, module, extra)` (always INFORMATION). -/
def logRun (c : LoggerConfig) (env : HostEnv) (text : String)
    (module : Option String) (extra : JValue) : Except JsError (List ConsoleEvent) :=
  catchBoundary env text (logBodyRun c env "INFORMATION" text module extra)

/-- Public `error(text, module, extra)`. -/
def errorRun (c : LoggerConfig) (env : HostEnv) (text : String)
    (module : Option String) (extra : JValue) : Except JsError (List ConsoleEvent) :=
  catchBoundary env text (logBodyRun c env "ERROR" text module extra)

/-- Public `warning(text, module, extra)`. -/
def warningRun (c : LoggerConfig) (env : HostEnv) (text : String)
    (module : Option String) (extra : JValue) : Except JsError (List ConsoleEvent) :=
  catchBoundary env text (logBodyRun c env "WARNING" text module extra)

/-- The synchronous part of `_sendToServer`: returns the value written to
`config._serverError` (false meaning untouched/cleared) and the console
writes.  With `apex` present the call is dispatched and its callbacks run in
later turns; with `apex` missing the internal catch sets the flag and, when
console output is enabled, writes the diagnostic—throwing out of the catch
itself if `console` is also missing. -/
def sendToServerSync (c : LoggerConfig) (env : HostEnv) (fallbackMsg : String) :
    Except JsError (Bool × List ConsoleEvent) :=
  if !c.enableServer then .ok (false, [])
  else if env.hasApex then .ok (false, [])
  else if c.enableConsole then
    if env.hasConsole then
      .ok (true, [.errorEvent "Logger server error: apex is not defined",
                  .logEvent fallbackMsg])
    else .error (.referenceError "console")
  else .ok (true, [])

/-- The body of `logServer`: entry creation, level filter, console output,
then a direct `_sendToServer` (no buffering in this variant). -/
def logServerBodyRun (c : LoggerConfig) (env : HostEnv) (text : String)
    (module : Option String) (extra : JValue) : Except JsError (List ConsoleEvent) :=
  let entryExtra := sanitizeData c.sanCfg extra
  let msg := formatConsoleMessage env.tsStr "INFORMATION" module text entryExtra
  if !shouldLog c.level (.str "INFORMATION") then .ok []
  else
    match (if c.enableConsole then outputToConsole env "INFORMATION" msg else .ok []) with
    | .error e => .error e
    | .ok evs1 =>
      match sendToServerSync c env msg with
      | .error e => .error e
      | .ok (_, evs2) => .ok (evs1 ++ evs2)

/-- Public `logServer(text, module, extra)`. -/
def logServerRun (c : LoggerConfig) (env : HostEnv) (text : String)
    (module : Option String) (extra : JValue) : Except JsError (List ConsoleEvent) :=
  catchBoundary env text (logServerBodyRun c env text module extra)

/-- Public `timeStart(unit)`: `timingUnits[unit] = performance.now()` with
no protective boundary; referring to a missing `performance` global throws
straight to the caller. -/
def timeStartRun (env : HostEnv) (reg : TimerReg) (unit : String) :
    Except JsError TimerReg :=
  if env.hasPerformance then .ok (timeStart reg env.now unit)
  else .error (.referenceError "performance")

/-- Module-logger `log` method from `createModuleLogger(moduleName)`: it
delegates to the shared `log` with the fixed module name. -/
def moduleLogRun (c : LoggerConfig) (env : HostEnv) (moduleName text : String)
    (extra : JValue) : Except JsError (List ConsoleEvent) :=
  logRun c env text (some moduleName) extra

/-! ## Helper lemmas -/

theorem sanitizeData_of_falsy (c : SanitizeConfig) (d : JValue)
    (h : truthy d = false) : sanitizeData c d = d := by
  unfold sanitizeData
  simp [h]

theorem stringifyVal_of_truthy (d : JValue) (h : truthy d = true) :
    ∃ s, stringifyVal d = some s := by
  cases d with
  | vUndefined => simp [truthy] at h
  | vNull => exact ⟨_, rfl⟩
  | vBool b => exact ⟨_, rfl⟩
  | vNum n => exact ⟨_, rfl⟩
  | vStr s => exact ⟨_, rfl⟩
  | vObj fs => exact ⟨_, rfl⟩

theorem jsLength_append (a b : String) :
    jsLength (a ++ b) = jsLength a + jsLength b := by
  simp [jsLength, String.data_append]

theorem jsLength_jsSubstringTo (s : String) (n : Nat) (h : n ≤ jsLength s) :
    jsLength (jsSubstringTo s n) = n := by
  simp only [jsLength, jsSubstringTo, List.length_take] at *
  omega

theorem one_le_escChar_length (c : Char) : 1 ≤ (escChar c).data.length := by
  unfold escChar
  repeat' split
  all_goals first | decide | simp [String.singleton]

theorem escList_length_ge (l : List Char) : l.length ≤ (escList l).length := by
  induction l with
  | nil => simp [escList]
  | cons c rest ih =>
    have := one_le_escChar_length c
    simp only [escList, List.length_append, List.length_cons]
    omega

theorem maskFields_idem (flds : List String) : (fs : JFields) →
    maskFields flds (maskFields flds fs) = maskFields flds fs
  | .nil => rfl
  | .cons k v rest => by
    by_cases hk : isSensitiveKey flds k
    · simp [maskFields, hk, maskFields_idem flds rest]
    · simp [maskFields, hk, maskFields_idem flds rest]

theorem fieldsLookup_maskFields (flds : List String) (k : String) : (fs : JFields) →
    fieldsLookup k (maskFields flds fs) =
      (fieldsLookup k fs).map
        (fun v => if isSensitiveKey flds k then .vStr "***MASKED***" else v)
  | .nil => rfl
  | .cons key v rest => by
    by_cases hk : key = k
    · subst hk
      simp [maskFields, fieldsLookup]
    · simp [maskFields, fieldsLookup, hk, fieldsLookup_maskFields flds k rest]

theorem fieldsLookup_utilsMaskFields (flds : List String) (k : String) : (fs : JFields) →
    fieldsLookup k (utilsMaskFields flds fs) =
      (fieldsLookup k fs).map
        (fun v => if utilsIsSensitiveKey flds k then .vStr "***MASKED***" else v)
  | .nil => rfl
  | .cons key v rest => by
    by_cases hk : key = k
    · subst hk
      simp [utilsMaskFields, fieldsLookup]
    · simp [utilsMaskFields, fieldsLookup, hk, fieldsLookup_utilsMaskFields flds k rest]

theorem leadsWith_iff (sub hay : List Char) :
    leadsWith sub hay = true ↔ sub <+: hay := by
  induction sub generalizing hay with
  | nil => simp [leadsWith, List.nil_prefix]
  | cons a as ih =>
    cases hay with
    | nil => simp [leadsWith]
    | cons b bs => simp [leadsWith, List.cons_prefix_cons, ih]

theorem listContains_iff (sub hay : List Char) :
    listContains sub hay = true ↔ sub <:+: hay := by
  induction hay with
  | nil => simp [listContains, List.isEmpty_iff, List.infix_nil]
  | cons c rest ih =>
    simp [listContains, List.infix_cons_iff, leadsWith_iff, ih]

theorem jsIncludes_iff (s sub : String) :
    jsIncludes s sub = true ↔ sub.data <:+: s.data :=
  listContains_iff sub.data s.data

theorem regLookup_regSet_self (u : String) (t : Int) (reg : TimerReg) :
    regLookup u (regSet u t reg) = some t := by
  induction reg with
  | nil => simp [regSet, regLookup]
  | cons p rest ih =>
    obtain ⟨k, v⟩ := p
    by_cases hk : k = u
    · simp [regSet, regLookup, hk]
    · simp [regSet, regLookup, hk, ih]

theorem regLookup_regRemove_self (u : String) (reg : TimerReg) :
    regLookup u (regRemove u reg) = none := by
  induction reg with
  | nil => rfl
  | cons p rest ih =>
    obtain ⟨k, v⟩ := p
    by_cases hk : k = u
    · simpa [regRemove, List.filter_cons, hk] using ih
    · simpa [regRemove, regLookup, List.filter_cons, hk] using ih

theorem retryLoopFail_spec (ec : Bool) (msg : String) (a r : Nat) :
    (retryLoopFail ec msg a r).attempts = r + 1 ∧
    (retryLoopFail ec msg a r).delays =
      (List.range' (a + 1) r).map (fun k => 1000 * k) ∧
    (retryLoopFail ec msg a r).serverError = true ∧
    (retryLoopFail ec msg a r).console =
      (if ec then
        [ConsoleEvent.warnEvent "Logger server failed, using console fallback",
         ConsoleEvent.logEvent msg]
      else []) := by
  induction r generalizing a with
  | zero => simp [retryLoopFail]
  | succ n ih =>
    obtain ⟨h1, h2, h3, h4⟩ := ih (a + 1)
    simp [retryLoopFail, h1, h2, h3, h4, List.range'_succ]

theorem catchBoundary_isOk (env : HostEnv) (text : String)
    (body : Except JsError (List ConsoleEvent)) :
    isOkE (catchBoundary env text body) = true := by
  cases body <;> rfl

theorem joinComma_length_ge (l : List String) (x : String) (hx : x ∈ l) :
    jsLength x ≤ jsLength (joinComma l) := by
  induction l with
  | nil => cases hx
  | cons a rest ih =>
    cases rest with
    | nil =>
      have : x = a := by simpa using hx
      subst this
      simp [joinComma]
    | cons b bs =>
      have hja : joinComma (a :: b :: bs) = a ++ "," ++ joinComma (b :: bs) := rfl
      rcases List.mem_cons.mp hx with h | h
      · subst h
        rw [hja, jsLength_append, jsLength_append]
        omega
      · have := ih h
        rw [hja, jsLength_append, jsLength_append]
        omega

theorem truncWrapper_stringify (origLen : Int) (ds : String) :
    stringifyVal (.vObj (.cons "_truncated" (.vBool true)
      (.cons "_originalSize" (.vNum origLen) (.cons "data" (.vStr ds) .nil)))) =
    some ("\x7b" ++ joinComma ["\"_truncated\":true",
      "\"_originalSize\":" ++ toString origLen,
      "\"data\":\"" ++ jsonEscape ds ++ "\""] ++ "\x7d") := rfl

theorem jsLength_jsonEscape_ge (s : String) : jsLength s ≤ jsLength (jsonEscape s) := by
  simpa [jsLength, jsonEscape] using escList_length_ge s.data

theorem truncWrapper_length_ge (origLen : Int) (ds s' : String)
    (h : stringifyVal (.vObj (.cons "_truncated" (.vBool true)
      (.cons "_originalSize" (.vNum origLen) (.cons "data" (.vStr ds) .nil)))) =
      some s') :
    jsLength ds ≤ jsLength s' := by
  rw [truncWrapper_stringify] at h
  have hs' := Option.some.inj h
  have hmem : ("\"data\":\"" ++ jsonEscape ds ++ "\"") ∈
      ["\"_truncated\":true", "\"_originalSize\":" ++ toString origLen,
       "\"data\":\"" ++ jsonEscape ds ++ "\""] := by simp
  have h1 := joinComma_length_ge _ _ hmem
  have h2 : jsLength ("\"data\":\"" ++ jsonEscape ds ++ "\"") =
      8 + jsLength (jsonEscape ds) + 1 := by
    rw [jsLength_append, jsLength_append]
    have : jsLength "\"data\":\"" = 8 := by decide
    have h1q : jsLength "\"" = 1 := by decide
    omega
  have h3 := jsLength_jsonEscape_ge ds
  rw [← hs', jsLength_append, jsLength_append]
  omega

/-! ## Claim theorems -/

/-- C9: for every falsy input (null, undefined, 0, the empty string, false),
the Sanitizer returns the input itself completely unchanged — no masking, no
truncation, and no error wrapper — regardless of configuration. -/
theorem sanitizeData_falsy_unchanged (c : SanitizeConfig) (d : JValue)
    (h : truthy d = false) : sanitizeData c d = d :=
  sanitizeData_of_falsy c d h

theorem sanitizeData_falsy_unchanged_witness :
    truthy (JValue.vNum 0) = false ∧
    sanitizeData ⟨true, none, 4⟩ (JValue.vNum 0) = JValue.vNum 0 :=
  ⟨by decide, sanitizeData_falsy_unchanged ⟨true, none, 4⟩ (JValue.vNum 0) (by decide)⟩

/-- C7: with buffering enabled and `bufferSize ≥ 1`: `_addToBuffer` appends
the entry to the tail of the queue and, when the queue length reaches
`bufferSize`, immediately flushes the entire queue, so after every enqueue
the queue holds strictly fewer than `bufferSize` entries; `_flushBuffer`
takes all queued entries at once, leaves the queue empty, hands each taken
entry to the delivery client in order, and a flush of an empty queue changes
nothing. -/
theorem buffer_invariants {α : Type} (cfg : BufConfig) (st : BufState α) (e : α)
    (hb : cfg.enableBuffer = true) (hs : 1 ≤ cfg.bufferSize) :
    (addToBuffer cfg st e).buffer.length < cfg.bufferSize ∧
    (st.buffer.length + 1 < cfg.bufferSize →
      addToBuffer cfg st e = { st with buffer := st.buffer ++ [e] }) ∧
    (cfg.bufferSize ≤ st.buffer.length + 1 →
      addToBuffer cfg st e =
        { buffer := [], dispatched := st.dispatched ++ (st.buffer ++ [e]) }) ∧
    (flushBuffer st).buffer = [] ∧
    (flushBuffer st).dispatched = st.dispatched ++ st.buffer ∧
    (st.buffer = [] → flushBuffer st = st) := by
  have hflush : (flushBuffer st).buffer = [] ∧
      (flushBuffer st).dispatched = st.dispatched ++ st.buffer := by
    unfold flushBuffer
    by_cases h0 : st.buffer.length = 0
    · have : st.buffer = [] := List.length_eq_zero.mp h0
      simp [h0, this]
    · simp [h0]
  refine ⟨?_, ?_, ?_, hflush.1, hflush.2, ?_⟩
  · by_cases hc : cfg.bufferSize ≤ st.buffer.length + 1
    · simp [addToBuffer, flushBuffer, hb, hc]
      omega
    · simp [addToBuffer, hb, hc]
      omega
  · intro hlt
    have hc : ¬cfg.bufferSize ≤ st.buffer.length + 1 := by omega
    simp [addToBuffer, hb, hc]
  · intro hge
    simp [addToBuffer, flushBuffer, hb, hge]
  · intro hnil
    simp [flushBuffer, hnil]

theorem buffer_invariants_witness :
    (addToBuffer ⟨true, 2⟩ (⟨[7], []⟩ : BufState Nat) 9).buffer.length < 2 :=
  (buffer_invariants ⟨true, 2⟩ (⟨[7], []⟩ : BufState Nat) 9 (by decide) (by decide)).1

/-- C10: `timeStop` and `timeStopServer` decide "not started" by a JS
falsiness test on the stored start value, so a unit whose recorded start
timestamp is exactly 0 (a `timeStart` call at clock value 0) is treated as
never started: the call returns 0, warns, creates no log entry, and leaves
the registry entry in place. -/
theorem timeStop_falsyStart_spec (reg : TimerReg) (unit : String) (now : Int)
    (h : regLookup unit reg = some 0) :
    timeStop reg now unit = ⟨0, reg, true, none⟩ ∧
    timeStopServer reg now unit = ⟨0, reg, true, none⟩ ∧
    regLookup unit (timeStop reg now unit).reg = some 0 ∧
    regLookup unit (timeStart reg 0 unit) = some 0 := by
  have h1 : timeStop reg now unit = ⟨0, reg, true, none⟩ := by
    unfold timeStop
    rw [h]
    simp
  have h2 : timeStopServer reg now unit = ⟨0, reg, true, none⟩ := by
    unfold timeStopServer
    rw [h]
    simp
  refine ⟨h1, h2, ?_, ?_⟩
  · rw [h1]
    exact h
  · exact regLookup_regSet_self unit 0 reg

theorem timeStop_falsyStart_spec_witness :
    timeStop [("u", (0 : Int))] 7 "u" = ⟨0, [("u", 0)], true, none⟩ :=
  (timeStop_falsyStart_spec [("u", 0)] "u" 7 (by decide)).1

/-- C5: `_shouldLog` returns true iff the level resolves to a defined weight
and either that weight is the PERMANENT weight 1, or the configured threshold
is not OFF (weight 0) and the level weight is at most the threshold weight.
PERMANENT passes even when the threshold is OFF, and an unrecognized level
string never logs (the comparison with an undefined weight is false — a
silent no-op, no exception). -/
theorem shouldLog_spec (configLevel : String) (level : LevelArg) (w : Nat)
    (hc : levelWeight configLevel = some w) :
    shouldLog configLevel level = true ↔
      ∃ wl, levelArgNum level = some wl ∧ (wl = 1 ∨ (w ≠ 0 ∧ wl ≤ w)) := by
  unfold shouldLog
  rw [hc]
  cases hl : levelArgNum level with
  | none => simp [beqOptNat, jsLeOpt]
  | some wl =>
    by_cases h1 : wl = 1
    · subst h1
      simp [beqOptNat]
    · by_cases h0 : w = 0
      · subst h0
        simp [beqOptNat, jsLeOpt, h1]
      · simp [beqOptNat, jsLeOpt, h1, h0]

theorem shouldLog_spec_witness :
    levelWeight "INFORMATION" = some 8 ∧
    (shouldLog "INFORMATION" (.str "ERROR") = true ↔
      ∃ wl, levelArgNum (.str "ERROR") = some wl ∧ (wl = 1 ∨ (8 ≠ 0 ∧ wl ≤ 8))) :=
  ⟨by decide, shouldLog_spec "INFORMATION" (.str "ERROR") 8 (by decide)⟩

/-- C1 counterexample: with `config.retryCount = 0` (so `maxRetries = N = 0`,
for which the claim demands exactly `N + 1 = 1` attempt), a permanently
failing transport makes 2 attempts, because `_sendToServer` computes
`maxRetries = config.retryCount || 1` and 0 is falsy. -/
theorem sendToServer_retryCount_zero_counterexample :
    (sendToServerAllFail ⟨true, 0, true⟩ "entry").attempts = 2 ∧ (2 : Nat) ≠ 0 + 1 := by
  decide

/-- C1 amended: for an effective `maxRetries = config.retryCount || 1` — in
particular for every configured `retryCount ≥ 1`, where it equals
`retryCount` — a permanently failing transport yields exactly
`retryCount + 1` attempts; the k-th retry is scheduled after a delay of
`1000 * k` ms (linear growth in the attempt number); after the last failure
`config._serverError` is set, and when console output is enabled the
fallback warning plus the formatted entry are written to the console. -/
theorem sendToServer_retry_exhaustion (cfg : ServerConfig) (msg : String)
    (hs : cfg.enableServer = true) (hr : 1 ≤ cfg.retryCount) :
    (sendToServerAllFail cfg msg).attempts = cfg.retryCount + 1 ∧
    (sendToServerAllFail cfg msg).delays =
      (List.range' 1 cfg.retryCount).map (fun k => 1000 * k) ∧
    (sendToServerAllFail cfg msg).serverError = true ∧
    (sendToServerAllFail cfg msg).console =
      (if cfg.enableConsole then
        [ConsoleEvent.warnEvent "Logger server failed, using console fallback",
         ConsoleEvent.logEvent msg]
      else []) := by
  have heff : jsOrDefault cfg.retryCount 1 = cfg.retryCount := by
    unfold jsOrDefault
    have : cfg.retryCount ≠ 0 := by omega
    simp [this]
  unfold sendToServerAllFail
  rw [hs]
  simpa [heff] using retryLoopFail_spec cfg.enableConsole msg 0 cfg.retryCount

theorem sendToServer_retry_exhaustion_witness :
    (sendToServerAllFail ⟨true, 2, true⟩ "entry").attempts = 2 + 1 ∧
    (sendToServerAllFail ⟨true, 2, true⟩ "entry").delays =
      (List.range' 1 2).map (fun k => 1000 * k) ∧
    (sendToServerAllFail ⟨true, 2, true⟩ "entry").serverError = true ∧
    (sendToServerAllFail ⟨true, 2, true⟩ "entry").console =
      (if true then
        [ConsoleEvent.warnEvent "Logger server failed, using console fallback",
         ConsoleEvent.logEvent "entry"]
      else []) :=
  sendToServer_retry_exhaustion ⟨true, 2, true⟩ "entry" (by decide) (by decide)

/-- C6 counterexample: `timeStart` is a public entry point with no
protective try/catch; in a host environment without a `performance` global
the `ReferenceError` raised by its body propagates to the caller instead of
being caught, contradicting the claim that every public entry point catches
any internal exception. -/
theorem timeStart_throws_counterexample :
    timeStartRun ⟨true, false, true, 5, "t"⟩ [] "load" =
      .error (.referenceError "performance") ∧
    isOkE (timeStartRun ⟨true, false, true, 5, "t"⟩ [] "load") = false :=
  ⟨rfl, rfl⟩

/-- C6 amended: the entry points `log`, `error`, `warning` and `logServer`
(and the module-logger wrappers that delegate to them) wrap their bodies in
a try/catch and never propagate an exception, falling back to writing the
original raw message when a console exists; the timing entry points
(`timeStart`, `timeStop`, `timeStopServer`) have no such boundary and can
propagate a host-environment error such as a missing `performance`
global. -/
theorem loggingApi_neverThrows (c : LoggerConfig) (env : HostEnv) (text : String)
    (module : Option String) (extra : JValue) (moduleName : String) :
    isOkE (logRun c env text module extra) = true ∧
    isOkE (errorRun c env text module extra) = true ∧
    isOkE (warningRun c env text module extra) = true ∧
    isOkE (logServerRun c env text module extra) = true ∧
    isOkE (moduleLogRun c env moduleName text extra) = true :=
  ⟨catchBoundary_isOk env text _, catchBoundary_isOk env text _,
   catchBoundary_isOk env text _, catchBoundary_isOk env text _,
   catchBoundary_isOk env text _⟩

/-- C2 counterexample: with `maxDataSize = 4` (the `configure` path applies
options without validation), the input `false` serializes to `"false"` of
length 5 > 4, yet the Sanitizer returns it unchanged — the falsiness guard
precedes the size check — instead of the truncation wrapper the claim
demands for every over-size input value. -/
theorem sanitizeData_falsy_oversize_counterexample :
    stringifyVal (JValue.vBool false) = some "false" ∧
    jsLength "false" = 5 ∧ (4 : Nat) < 5 ∧
    sanitizeData ⟨true, none, 4⟩ (JValue.vBool false) = JValue.vBool false ∧
    sanitizeData ⟨true, none, 4⟩ (JValue.vBool false) ≠
      JValue.vObj (.cons "_truncated" (.vBool true)
        (.cons "_originalSize" (.vNum 5)
          (.cons "data" (.vStr "fals...") .nil))) := by
  decide

/-- C2 amended: for every TRUTHY input value whose serialized form has
length strictly greater than `maxDataSize` (falsy values are returned
unchanged by the guard that precedes the size check), the Sanitizer returns
the truncation wrapper whose `data` field is the serialized prefix plus the
three-dot suffix — of length exactly `maxDataSize + 3`, hence at most
`maxDataSize` plus the suffix length — and whose `_originalSize` field
equals the full pre-truncation serialized length; the wrapper is returned
before masking is reached, so the truncated result is not additionally
masked. -/
theorem sanitizeData_oversize_truncation (c : SanitizeConfig) (d : JValue) (s : String)
    (hd : truthy d = true) (hs : stringifyVal d = some s)
    (hlen : c.maxDataSize < jsLength s) :
    sanitizeData c d =
      JValue.vObj (.cons "_truncated" (.vBool true)
        (.cons "_originalSize" (.vNum (jsLength s))
          (.cons "data" (.vStr (jsSubstringTo s c.maxDataSize ++ "...")) .nil))) ∧
    jsLength (jsSubstringTo s c.maxDataSize ++ "...") = c.maxDataSize + 3 := by
  constructor
  · simp [sanitizeData, hd, hs, hlen]
  · rw [jsLength_append, jsLength_jsSubstringTo s c.maxDataSize (le_of_lt hlen)]
    rfl

theorem sanitizeData_oversize_truncation_witness :
    sanitizeData ⟨true, none, 5⟩ (JValue.vStr "abcdefgh") =
      JValue.vObj (.cons "_truncated" (.vBool true)
        (.cons "_originalSize" (.vNum (jsLength "\"abcdefgh\""))
          (.cons "data"
            (.vStr (jsSubstringTo "\"abcdefgh\"" 5 ++ "...")) .nil))) ∧
    jsLength (jsSubstringTo "\"abcdefgh\"" 5 ++ "...") = 5 + 3 :=
  sanitizeData_oversize_truncation ⟨true, none, 5⟩ (JValue.vStr "abcdefgh")
    "\"abcdefgh\"" (by decide) (by decide) (by decide)

/-- C3 counterexample: the claim asserts the configured `sensitiveFields`
entries are case-insensitive substrings, but `_maskSensitiveFields` in
`logger.js` compares the raw entry against the lowercased key: with
`sensitiveFields` configured as ["TOKEN"], the key `token` — which contains
`TOKEN` case-insensitively, as the `logger-utils.js` variant confirms — is
left unmasked by the Sanitizer. -/
theorem masking_entry_caseSensitive_counterexample :
    utilsIsSensitiveKey ["TOKEN"] "token" = true ∧
    isSensitiveKey ["TOKEN"] "token" = false ∧
    sanitizeData ⟨true, some ["TOKEN"], 10000⟩
      (.vObj (.cons "token" (.vStr "abc") .nil)) =
      .vObj (.cons "token" (.vStr "abc") .nil) ∧
    JValue.vStr "abc" ≠ JValue.vStr "***MASKED***" := by
  decide

/-- C3 amended: with masking enabled and the serialized size within
`maxDataSize`, the Sanitizer output maps a key to the mask token exactly
when the lowercase form of the key contains a configured sensitive-field
entry VERBATIM (the entries are matched case-sensitively by
`_maskSensitiveFields` in `logger.js`; only `loggerUtils.maskSensitiveFields`
lowercases the entries and is fully case-insensitive), and every other key
is mapped to its original, unchanged value. -/
theorem sanitizeData_masking_spec (c : SanitizeConfig) (fs : JFields) (s : String)
    (hm : c.enableDataMasking = true)
    (hs : stringifyVal (.vObj fs) = some s)
    (hsize : jsLength s ≤ c.maxDataSize) :
    sanitizeData c (.vObj fs) = .vObj (maskFields (effSensitiveFields c) fs) ∧
    (∀ k, fieldsLookup k (maskFields (effSensitiveFields c) fs) =
      (fieldsLookup k fs).map
        (fun v =>
          if isSensitiveKey (effSensitiveFields c) k then .vStr "***MASKED***" else v)) ∧
    (∀ k, isSensitiveKey (effSensitiveFields c) k = true ↔
      ∃ f ∈ effSensitiveFields c, f.data <:+: (lowerStr k).data) ∧
    (∀ flds k, utilsIsSensitiveKey flds k = true ↔
      ∃ f ∈ flds, (lowerStr f).data <:+: (lowerStr k).data) := by
  refine ⟨?_, fun k => fieldsLookup_maskFields _ k fs, fun k => ?_, fun flds k => ?_⟩
  · have hnot : ¬c.maxDataSize < jsLength s := not_lt.mpr hsize
    simp [sanitizeData, truthy, hs, hnot, maskSensitiveFields, hm]
  · simp [isSensitiveKey, List.any_eq_true, jsIncludes_iff]
  · simp [utilsIsSensitiveKey, List.any_eq_true, jsIncludes_iff]

theorem sanitizeData_masking_spec_witness :
    sanitizeData ⟨true, none, 1000⟩ (.vObj (.cons "password" (.vStr "x") .nil)) =
      .vObj (maskFields (effSensitiveFields ⟨true, none, 1000⟩)
        (.cons "password" (.vStr "x") .nil)) :=
  (sanitizeData_masking_spec ⟨true, none, 1000⟩ (.cons "password" (.vStr "x") .nil)
    "\x7b\"password\":\"x\"\x7d" (by decide) (by decide) (by decide)).1

/-- C8 counterexample: a unit started by `timeStart` at clock value 0 IS a
started unit, yet `timeStop` takes the not-started path: it returns 0,
warns, creates no log entry, and does not remove the registry entry —
contradicting the claim that every started unit gets its elapsed time
logged and its entry removed. -/
theorem timeStop_startedZero_counterexample :
    timeStart [] 0 "u" = [("u", 0)] ∧
    timeStop [("u", (0 : Int))] 5 "u" = ⟨0, [("u", 0)], true, none⟩ ∧
    (timeStop [("u", (0 : Int))] 5 "u").logged = none ∧
    regLookup "u" (timeStop [("u", (0 : Int))] 5 "u").reg = some 0 := by
  decide

/-- C8 amended: for every unit with no registry entry, `timeStop` (and
`timeStopServer`) returns exactly 0, warns, creates no log entry and leaves
the registry unchanged; for every unit whose recorded start value is
NONZERO (a start value of exactly 0 is falsy and takes the not-started
path), `timeStop` returns the non-negative elapsed time (given a monotone
clock), removes the unit from the registry, and routes the completion
message (unit name, " completed in ", elapsed, "ms") with the unit and the
elapsed time as the extra payload through the logging path. -/
theorem timeStop_registry_spec (reg : TimerReg) (now : Int) (unit : String) :
    (regLookup unit reg = none →
      timeStop reg now unit = ⟨0, reg, true, none⟩ ∧
      timeStopServer reg now unit = ⟨0, reg, true, none⟩) ∧
    (∀ t : Int, regLookup unit reg = some t → t ≠ 0 → t ≤ now →
      timeStop reg now unit =
        ⟨now - t, regRemove unit reg, false,
          some (unit ++ " completed in " ++ toFixed2 (now - t) ++ "ms",
            .vObj (.cons "unit" (.vStr unit)
              (.cons "elapsed" (.vNum (now - t)) .nil)))⟩ ∧
      0 ≤ now - t ∧
      regLookup unit (regRemove unit reg) = none) := by
  constructor
  · intro h
    constructor
    · unfold timeStop
      rw [h]
    · unfold timeStopServer
      rw [h]
  · intro t ht ht0 htle
    refine ⟨?_, by omega, regLookup_regRemove_self unit reg⟩
    unfold timeStop
    rw [ht]
    simp [ht0]

/-- C4 counterexample: sanitization is not idempotent: masking can inflate
the serialized size past `maxDataSize`, so the second pass truncates what
the first pass merely masked.  With `maxDataSize = 20` and input
`(password: 1)` (serialized length 14), the first pass masks the value —
the masked object serializes to 27 characters — and the second pass wraps
it in a truncation wrapper, a different value. -/
theorem sanitizeData_not_idem_counterexample :
    sanitizeData ⟨true, some ["password"], 20⟩
      (.vObj (.cons "password" (.vNum 1) .nil)) =
      .vObj (.cons "password" (.vStr "***MASKED***") .nil) ∧
    sanitizeData ⟨true, some ["password"], 20⟩
      (sanitizeData ⟨true, some ["password"], 20⟩
        (.vObj (.cons "password" (.vNum 1) .nil))) ≠
    sanitizeData ⟨true, some ["password"], 20⟩
      (.vObj (.cons "password" (.vNum 1) .nil)) := by
  decide

/-- C4 amended: sanitization is idempotent on every input whose sanitized
result still serializes within `maxDataSize` — in particular an
already-masked object is not changed further.  (When the first pass
truncates, or when masking pushes the serialized size over `maxDataSize`,
the second pass produces a fresh truncation wrapper and idempotence
fails.) -/
theorem sanitizeData_idem_within_bound (c : SanitizeConfig) (d : JValue) (s' : String)
    (h1 : stringifyVal (sanitizeData c d) = some s')
    (h2 : jsLength s' ≤ c.maxDataSize) :
    sanitizeData c (sanitizeData c d) = sanitizeData c d := by
  by_cases hd : truthy d = true
  case neg =>
    have hf : truthy d = false := by simpa using hd
    rw [sanitizeData_of_falsy c d hf, sanitizeData_of_falsy c d hf]
  case pos =>
    obtain ⟨s, hs⟩ := stringifyVal_of_truthy d hd
    by_cases hbig : c.maxDataSize < jsLength s
    · -- first pass truncates: its wrapper serializes beyond maxDataSize,
      -- contradicting h2
      have hw : sanitizeData c d =
          .vObj (.cons "_truncated" (.vBool true)
            (.cons "_originalSize" (.vNum (jsLength s))
              (.cons "data"
                (.vStr (jsSubstringTo s c.maxDataSize ++ "...")) .nil))) := by
        simp [sanitizeData, hd, hs, hbig]
      rw [hw] at h1
      have hge := truncWrapper_length_ge _ _ _ h1
      have hdata : jsLength (jsSubstringTo s c.maxDataSize ++ "...") =
          c.maxDataSize + 3 := by
        rw [jsLength_append, jsLength_jsSubstringTo s c.maxDataSize (le_of_lt hbig)]
        rfl
      omega
    · have hm : sanitizeData c d = maskSensitiveFields c d := by
        simp [sanitizeData, hd, hs, hbig]
      by_cases hmask : c.enableDataMasking = true
      · cases d with
        | vNull => simp [truthy] at hd
        | vUndefined => simp [truthy] at hd
        | vBool b =>
          have hdm : maskSensitiveFields c (.vBool b) = .vBool b := by
            simp [maskSensitiveFields]
          rw [hm, hdm]
          exact hm.trans hdm
        | vNum n =>
          have hdm : maskSensitiveFields c (.vNum n) = .vNum n := by
            simp [maskSensitiveFields]
          rw [hm, hdm]
          exact hm.trans hdm
        | vStr t =>
          have hdm : maskSensitiveFields c (.vStr t) = .vStr t := by
            simp [maskSensitiveFields]
          rw [hm, hdm]
          exact hm.trans hdm
        | vObj fs =>
          have hmv : maskSensitiveFields c (.vObj fs) =
              .vObj (maskFields (effSensitiveFields c) fs) := by
            simp [maskSensitiveFields, hmask]
          rw [hm, hmv] at h1 ⊢
          have hnotbig : ¬c.maxDataSize < jsLength s' := not_lt.mpr h2
          unfold sanitizeData
          rw [h1]
          simp [truthy, hnotbig, maskSensitiveFields, hmask, maskFields_idem]
      · have hmaskf : c.enableDataMasking = false := by simpa using hmask
        have hdm : maskSensitiveFields c d = d := by
          simp [maskSensitiveFields, hmaskf]
        rw [hm, hdm]
        exact hm.trans hdm

theorem sanitizeData_idem_within_bound_witness :
    sanitizeData ⟨true, none, 1000⟩
      (sanitizeData ⟨true, none, 1000⟩ (.vObj (.cons "user" (.vStr "bob") .nil))) =
    sanitizeData ⟨true, none, 1000⟩ (.vObj (.cons "user" (.vStr "bob") .nil)) :=
  sanitizeData_idem_within_bound ⟨true, none, 1000⟩
    (.vObj (.cons "user" (.vStr "bob") .nil)) "\x7b\"user\":\"bob\"\x7d"
    (by decide) (by decide)

theorem timeStop_registry_spec_witness :
    timeStop [("u", (5 : Int))] 9 "u" =
      ⟨9 - 5, regRemove "u" [("u", (5 : Int))], false,
        some ("u completed in " ++ toFixed2 (9 - 5) ++ "ms",
          .vObj (.cons "unit" (.vStr "u")
            (.cons "elapsed" (.vNum (9 - 5)) .nil)))⟩ ∧
    timeStop [] 9 "zzz" = ⟨0, [], true, none⟩ :=
  ⟨((timeStop_registry_spec [("u", 5)] 9 "u").2 5 (by decide) (by decide)
      (by decide)).1,
   ((timeStop_registry_spec [] 9 "zzz").1 (by decide)).1⟩

end ApexLogger
